import Mathlib

/-!
Shallow embedding of the Dealbuster backend (`src/backend/server.js`).

The server keeps an in-memory store of deals, users, verifications and
alerts, plus a global mode configuration.  Deals move through the status
lifecycle `pending -> promoted | verified | rejected` driven by either the
centralized promotion rule (`checkPromotion`) or the decentralized
consensus rule (`checkConsensus`).  Alert matching (`checkAlertsForDeal`)
fires at most once per (alert, deal) pair.

JavaScript `Map`s keyed by ids are embedded as functions `Nat → Option _`;
iteration-ordered collections (alerts) as lists.  Prices are embedded as
rationals.  Outbound WebSocket broadcasts, the `setTimeout` scheduling of
a promotion check, and the entry into alert evaluation are recorded as an
explicit event list so that temporal claims are statable.
-/

namespace Dealbuster

inductive Status where
  | pending
  | promoted
  | verified
  | rejected
deriving DecidableEq

inductive Verdict where
  | valid
  | invalid
deriving DecidableEq

inductive Mode where
  | centralized
  | decentralized
deriving DecidableEq

/-- A verification record, as built in the `POST /api/deals/:dealId/verify`
handler. -/
structure Verification where
  id : Nat
  dealId : Nat
  verifierId : Nat
  verifierUsername : String
  verdict : Verdict
  evidence : String
  timestamp : Nat
deriving DecidableEq

/-- A deal record, as built in the `POST /api/deals` handler. -/
structure Deal where
  id : Nat
  title : String
  price : Rat
  originalPrice : Option Rat
  url : String
  productCategory : String
  submittedBy : Nat
  submittedByUsername : String
  timestamp : Nat
  verifications : List Verification
  votes : Nat
  status : Status
  promotedAt : Option Nat
  verifiedAt : Option Nat
deriving DecidableEq

/-- A user record, as built in `POST /api/users/register`. -/
structure User where
  id : Nat
  username : String
  reputationScore : Nat
  verificationHistory : List Nat
  createdAt : Nat
deriving DecidableEq

/-- An alert record, as built in the `POST /api/alerts` handler
(keywords stored lowercased, `minVerifications || 3`, empty triggered
list). -/
structure Alert where
  id : Nat
  userId : Nat
  productKeywords : String
  maxPrice : Rat
  minVerifications : Nat
  createdAt : Nat
  triggered : List Nat
deriving DecidableEq

/-- Observable effects of one server operation: the WebSocket broadcasts
(`NEW_DEAL`, `DEAL_UPDATED`, `DEAL_PROMOTED`, `DEAL_VERIFIED`,
`DEAL_REJECTED`, `ALERT_TRIGGERED`, `CONFIG_UPDATED`), plus two
instrumentation markers: `schedulePromo` records the `setTimeout`
registration of a promotion check at submission, and `alertsEvaluated`
records an invocation of `checkAlertsForDeal`. -/
inductive Event where
  | newDeal (dealId : Nat)
  | dealUpdated (dealId : Nat)
  | dealPromoted (dealId : Nat)
  | dealVerified (dealId : Nat)
  | dealRejected (dealId : Nat)
  | alertsEvaluated (dealId : Nat)
  | alertTriggered (alertId : Nat) (dealId : Nat) (latency : Int)
  | configUpdated (m : Mode)
  | schedulePromo (dealId : Nat)
deriving DecidableEq

/-- The in-memory server state (`const state = ...` in the source). -/
structure ServerState where
  deals : Nat → Option Deal
  users : Nat → Option User
  verifications : Nat → Option Verification
  alerts : List Alert
  mode : Mode
  promotionThreshold : Nat

/-- `CONSENSUS_THRESHOLD = 3` in `checkConsensus`. -/
def consensusThreshold : Nat := 3

/-- Typed failures surfaced by the HTTP handlers (400, 404, 409). -/
inductive ApiError where
  | validation
  | notFound
  | duplicate
deriving DecidableEq

/-- Map update: `state.deals.set(key, d)`. -/
def setDeal (ds : Nat → Option Deal) (key : Nat) (d : Deal) : Nat → Option Deal :=
  fun i => if i = key then some d else ds i

/-- Map update: `state.users.set(key, u)`. -/
def setUser (us : Nat → Option User) (key : Nat) (u : User) : Nat → Option User :=
  fun i => if i = key then some u else us i

/-- Map update: `state.verifications.set(key, v)`. -/
def setVerification (vs : Nat → Option Verification) (key : Nat) (v : Verification) :
    Nat → Option Verification :=
  fun i => if i = key then some v else vs i

/-- `pat` occurs at the start of `s` (character-wise `==`). -/
def startsWithCL : List Char → List Char → Bool
  | [], _ => true
  | _ :: _, [] => false
  | p :: ps, c :: cs => p == c && startsWithCL ps cs

/-- `pat` occurs somewhere in `s`: JavaScript `s.includes(pat)`. -/
def includesCL (s pat : List Char) : Bool :=
  match s with
  | [] => pat.isEmpty
  | _ :: rest => startsWithCL pat s || includesCL rest pat

/-- JavaScript `s.toLowerCase()` (ASCII range, which covers every string
the embedding manipulates). -/
def lowerStr (s : String) : String :=
  String.mk (s.data.map Char.toLower)

/-- JavaScript `s.includes(pat)`. -/
def strIncludes (s pat : String) : Bool :=
  includesCL s.data pat.data

/-- The matching predicate of `checkAlertsForDeal`: keyword match on
lowercased title or category, price at most `maxPrice`, and at least
`minVerifications` verification records. -/
def alertMatches (alert : Alert) (deal : Deal) : Bool :=
  (strIncludes (lowerStr deal.title) alert.productKeywords
    || strIncludes (lowerStr deal.productCategory) alert.productKeywords)
  && decide (deal.price ≤ alert.maxPrice)
  && decide (deal.verifications.length ≥ alert.minVerifications)

/-- One iteration of the `alerts.forEach` loop in `checkAlertsForDeal`:
on a match not yet in the triggered set, record the deal id and emit the
`ALERT_TRIGGERED` notification with its latency. -/
def processAlert (now : Nat) (deal : Deal) (alert : Alert) : Alert × List Event :=
  if alertMatches alert deal then
    if alert.triggered.contains deal.id then (alert, [])
    else ({ alert with triggered := alert.triggered ++ [deal.id] },
          [Event.alertTriggered alert.id deal.id ((now : Int) - (deal.timestamp : Int))])
  else (alert, [])

/-- The `alerts.forEach` loop over the whole registry. -/
def runAlerts (alerts : List Alert) (deal : Deal) (now : Nat) : List Alert × List Event :=
  match alerts with
  | [] => ([], [])
  | a :: rest =>
    let pa := processAlert now deal a
    let pr := runAlerts rest deal now
    (pa.1 :: pr.1, pa.2 ++ pr.2)

/-- `checkAlertsForDeal(deal)`: the `alertsEvaluated` marker records the
invocation itself. -/
def checkAlertsForDeal (alerts : List Alert) (deal : Deal) (now : Nat) :
    List Alert × List Event :=
  let r := runAlerts alerts deal now
  (r.1, Event.alertsEvaluated deal.id :: r.2)

/-- The promotion mutation of `checkPromotion`: `deal.status = 'promoted';
deal.promotedAt = Date.now()`. -/
def promoteDeal (deal : Deal) (now : Nat) : Deal :=
  { deal with status := Status.promoted, promotedAt := some now }

/-- The verified mutation of `checkConsensus`: `deal.status = 'verified';
deal.verifiedAt = Date.now()`. -/
def verifyDeal (deal : Deal) (now : Nat) : Deal :=
  { deal with status := Status.verified, verifiedAt := some now }

/-- The rejected mutation of `checkConsensus`: `deal.status = 'rejected'`. -/
def rejectDeal (deal : Deal) : Deal :=
  { deal with status := Status.rejected }

/-- `checkPromotion(dealId)`: fires once per scheduled check; promotes a
still-pending deal whose votes reached the threshold, stamping
`promotedAt`, broadcasting `DEAL_PROMOTED`, then evaluating alerts;
otherwise does nothing. -/
def checkPromotion (s : ServerState) (dealId now : Nat) : ServerState × List Event :=
  match s.deals dealId with
  | none => (s, [])
  | some deal =>
    if deal.status ≠ Status.pending then (s, [])
    else if deal.votes ≥ s.promotionThreshold then
      let deal' := promoteDeal deal now
      let ar := checkAlertsForDeal s.alerts deal' now
      ({ s with deals := setDeal s.deals dealId deal', alerts := ar.1 },
       Event.dealPromoted deal'.id :: ar.2)
    else (s, [])

/-- Count of verifications with the given verdict. -/
def countVerdict (vs : List Verification) (w : Verdict) : Nat :=
  (vs.filter (fun v => v.verdict == w)).length

/-- `checkConsensus(deal)`: valid-consensus branch first, then
invalid-consensus, both guarded by the deal still being pending.
`dealId` is the store key under which `deal` lives (the mutation of the
shared object in the source). -/
def checkConsensus (s : ServerState) (dealId : Nat) (deal : Deal) (now : Nat) :
    ServerState × List Event :=
  let validVerifications := countVerdict deal.verifications Verdict.valid
  let invalidVerifications := countVerdict deal.verifications Verdict.invalid
  if validVerifications ≥ consensusThreshold ∧ deal.status = Status.pending then
    let deal' := verifyDeal deal now
    let ar := checkAlertsForDeal s.alerts deal' now
    ({ s with deals := setDeal s.deals dealId deal', alerts := ar.1 },
     Event.dealVerified deal'.id :: ar.2)
  else if invalidVerifications ≥ consensusThreshold ∧ deal.status = Status.pending then
    let deal' := rejectDeal deal
    ({ s with deals := setDeal s.deals dealId deal' }, [Event.dealRejected deal'.id])
  else (s, [])

/-- Request body of `POST /api/deals`; absent JSON fields are `none`. -/
structure DealDraft where
  title : Option String
  price : Option Rat
  originalPrice : Option Rat
  url : Option String
  productCategory : Option String
  submittedBy : Option Nat
deriving DecidableEq

/-- `POST /api/deals`: the `!title || !price || !url || !submittedBy`
truthiness validation (empty string and numeric zero are falsy), the user
lookup, deal construction, the mode-dependent `setTimeout` of a promotion
check, and the `NEW_DEAL` broadcast. -/
def postDeal (s : ServerState) (draft : DealDraft) (now newId : Nat) :
    Except ApiError (ServerState × List Event) :=
  match draft.title, draft.price, draft.url, draft.submittedBy with
  | some t, some p, some u, some uid =>
    if t.isEmpty || p = 0 || u.isEmpty then Except.error ApiError.validation
    else
      match s.users uid with
      | none => Except.error ApiError.notFound
      | some user =>
        let deal : Deal :=
          { id := newId
            title := t
            price := p
            originalPrice :=
              (match draft.originalPrice with
               | none => none
               | some q => if q = 0 then none else some q)
            url := u
            productCategory :=
              (match draft.productCategory with
               | none => "General"
               | some c => if c.isEmpty then "General" else c)
            submittedBy := uid
            submittedByUsername := user.username
            timestamp := now
            verifications := []
            votes := 0
            status := Status.pending
            promotedAt := none
            verifiedAt := none }
        let evs :=
          (if s.mode = Mode.centralized then [Event.schedulePromo newId] else [])
            ++ [Event.newDeal newId]
        Except.ok ({ s with deals := setDeal s.deals newId deal }, evs)
  | _, _, _, _ => Except.error ApiError.validation

/-- `POST /api/deals/:dealId/vote`: plain increment, `DEAL_UPDATED`
broadcast, no promotion or consensus check. -/
def postVote (s : ServerState) (dealId userId : Nat) :
    Except ApiError (ServerState × List Event) :=
  match s.deals dealId with
  | none => Except.error ApiError.notFound
  | some deal =>
    match s.users userId with
    | none => Except.error ApiError.notFound
    | some _ =>
      let deal' : Deal := { deal with votes := deal.votes + 1 }
      Except.ok ({ s with deals := setDeal s.deals dealId deal' },
                 [Event.dealUpdated deal.id])

/-- The record construction and the three store pushes of the verify
handler (`deal.verifications.push`, `state.verifications.set`,
`user.verificationHistory.push`); returns the updated state together
with the mutated deal object. -/
def appendVerification (s : ServerState) (dealId userId : Nat) (deal : Deal) (user : User)
    (verdict : Verdict) (evidence : String) (now vid : Nat) : ServerState × Deal :=
  let v : Verification :=
    { id := vid, dealId := deal.id, verifierId := userId,
      verifierUsername := user.username, verdict := verdict,
      evidence := evidence, timestamp := now }
  let deal₁ : Deal := { deal with verifications := deal.verifications ++ [v] }
  let user₁ : User :=
    { user with verificationHistory := user.verificationHistory ++ [vid] }
  ({ s with deals := setDeal s.deals dealId deal₁,
            verifications := setVerification s.verifications vid v,
            users := setUser s.users userId user₁ },
   deal₁)

/-- `POST /api/deals/:dealId/verify`: lookups, duplicate-verifier check,
record construction, the three store updates, the mode-dependent
`checkConsensus`, then the `DEAL_UPDATED` broadcast. -/
def postVerify (s : ServerState) (dealId userId : Nat) (verdict : Verdict)
    (evidence : String) (now vid : Nat) :
    Except ApiError (ServerState × List Event) :=
  match s.deals dealId with
  | none => Except.error ApiError.notFound
  | some deal =>
    match s.users userId with
    | none => Except.error ApiError.notFound
    | some user =>
      if deal.verifications.any (fun v => v.verifierId == userId) then
        Except.error ApiError.duplicate
      else
        let p := appendVerification s dealId userId deal user verdict evidence now vid
        let r := if s.mode = Mode.decentralized then checkConsensus p.1 dealId p.2 now
                 else (p.1, [])
        Except.ok (r.1, r.2 ++ [Event.dealUpdated deal.id])

/-- `POST /api/alerts`: truthiness validation, user lookup, keyword
lowercasing, `minVerifications || 3` defaulting, empty triggered list. -/
def postAlert (s : ServerState) (userId : Option Nat) (productKeywords : Option String)
    (maxPrice : Option Rat) (minVerifications : Option Nat) (now alertId : Nat) :
    Except ApiError (ServerState × List Event) :=
  match userId, productKeywords, maxPrice with
  | some uid, some kw, some mp =>
    if kw.isEmpty || mp = 0 then Except.error ApiError.validation
    else
      match s.users uid with
      | none => Except.error ApiError.notFound
      | some _ =>
        let alert : Alert :=
          { id := alertId, userId := uid,
            productKeywords := lowerStr kw, maxPrice := mp,
            minVerifications :=
              (match minVerifications with
               | none => 3
               | some n => if n = 0 then 3 else n),
            createdAt := now, triggered := [] }
        Except.ok ({ s with alerts := s.alerts ++ [alert] }, [])
  | _, _, _ => Except.error ApiError.validation

/-- `DELETE /api/alerts/:alertId`. -/
def deleteAlertOp (s : ServerState) (alertId : Nat) : ServerState × List Event :=
  ({ s with alerts := s.alerts.filter (fun a => a.id != alertId) }, [])

/-- `POST /api/config/mode` with a well-formed mode value. -/
def setMode (s : ServerState) (m : Mode) : ServerState × List Event :=
  ({ s with mode := m }, [Event.configUpdated m])

/-- The state-mutating server operations.  Fresh ids (`uuidv4()`) and the
current wall clock (`Date.now()`) enter as parameters. -/
inductive Op where
  | submit (draft : DealDraft) (now newId : Nat)
  | vote (dealId userId : Nat)
  | verify (dealId userId : Nat) (verdict : Verdict) (evidence : String) (now vid : Nat)
  | promoCheck (dealId now : Nat)
  | alertCreate (userId : Option Nat) (kw : Option String) (maxPrice : Option Rat)
      (minV : Option Nat) (now alertId : Nat)
  | alertDelete (alertId : Nat)
  | modeSet (m : Mode)

/-- One discrete server step: a failed handler sends an error response
and leaves the state untouched with no broadcast. -/
def step (s : ServerState) : Op → ServerState × List Event
  | Op.submit d now nid =>
    match postDeal s d now nid with
    | Except.ok r => r
    | Except.error _ => (s, [])
  | Op.vote dealId userId =>
    match postVote s dealId userId with
    | Except.ok r => r
    | Except.error _ => (s, [])
  | Op.verify dealId userId verdict ev now vid =>
    match postVerify s dealId userId verdict ev now vid with
    | Except.ok r => r
    | Except.error _ => (s, [])
  | Op.promoCheck dealId now => checkPromotion s dealId now
  | Op.alertCreate uid kw mp mv now aid =>
    match postAlert s uid kw mp mv now aid with
    | Except.ok r => r
    | Except.error _ => (s, [])
  | Op.alertDelete aid => deleteAlertOp s aid
  | Op.modeSet m => setMode s m

/-- Allowed status evolutions: unchanged, or pending to a terminal
status. -/
def statusOk (a b : Status) : Prop :=
  a = b ∨ (a = Status.pending
    ∧ (b = Status.promoted ∨ b = Status.verified ∨ b = Status.rejected))

/-- Freshness of the id drawn for a submission (`uuidv4()` never collides
with an existing key). -/
def freshFor (s : ServerState) : Op → Prop
  | Op.submit _ _ nid => s.deals nid = none
  | _ => True

/-- Keys of the deal store agree with the stored record's id field. -/
def keyConsistent (s : ServerState) : Prop :=
  ∀ i d, s.deals i = some d → d.id = i

/-- Recognizer for the `setTimeout(checkPromotion)` marker. -/
def isSched : Event → Bool
  | Event.schedulePromo _ => true
  | _ => false

/-- Spec-side matching predicate, following §4.3 of the specification
verbatim: deal title case-insensitively contains the keyword phrase, or
the category does; price at most the maximum; verification count at
least the minimum. -/
def specAlertMatches (alert : Alert) (deal : Deal) : Bool :=
  (strIncludes (lowerStr deal.title) (lowerStr alert.productKeywords)
    || strIncludes (lowerStr deal.productCategory) (lowerStr alert.productKeywords))
  && decide (deal.price ≤ alert.maxPrice)
  && decide (deal.verifications.length ≥ alert.minVerifications)

/-! ## Concrete fixtures used by witnesses -/

def exUserW : User :=
  { id := 0, username := "alice", reputationScore := 100,
    verificationHistory := [9], createdAt := 0 }

def exVerifW : Verification :=
  { id := 9, dealId := 1, verifierId := 0, verifierUsername := "alice",
    verdict := Verdict.valid, evidence := "", timestamp := 2 }

def exDealStored : Deal :=
  { id := 1, title := "RTX 4080", price := 650, originalPrice := none,
    url := "http://ex", productCategory := "Electronics", submittedBy := 0,
    submittedByUsername := "alice", timestamp := 1, verifications := [exVerifW],
    votes := 0, status := Status.pending, promotedAt := none, verifiedAt := none }

def exSW : ServerState :=
  { deals := fun i => if i = 1 then some exDealStored else none,
    users := fun i => if i = 0 then some exUserW else none,
    verifications := fun i => if i = 9 then some exVerifW else none,
    alerts := [], mode := Mode.centralized, promotionThreshold := 5 }

def exDealW : Deal :=
  { id := 2, title := "Gaming Laptop", price := 501, originalPrice := none,
    url := "http://ex2", productCategory := "Electronics", submittedBy := 0,
    submittedByUsername := "alice", timestamp := 3, verifications := [],
    votes := 0, status := Status.pending, promotedAt := none, verifiedAt := none }

def exDealW2 : Deal :=
  { exDealW with id := 3, title := "Phone", price := 200 }

def exAlertW : Alert :=
  { id := 4, userId := 0, productKeywords := "laptop", maxPrice := 500,
    minVerifications := 3, createdAt := 0, triggered := [] }

def exAlertTriggeredW : Alert :=
  { exAlertW with id := 5, triggered := [2] }

def exDealThreeValid : Deal :=
  { exDealStored with
    verifications :=
      [exVerifW,
       { exVerifW with id := 10, verifierId := 2, verifierUsername := "bob" },
       { exVerifW with id := 11, verifierId := 3, verifierUsername := "carol" }] }

def exSW3 : ServerState :=
  { exSW with
    deals := fun i => if i = 1 then some exDealThreeValid else none,
    mode := Mode.decentralized }

def exDraftNeg : DealDraft :=
  { title := some "Deal", price := some (-5), originalPrice := none,
    url := some "u", productCategory := none, submittedBy := some 0 }

def exDealNeg : Deal :=
  { id := 2, title := "Deal", price := -5, originalPrice := none, url := "u",
    productCategory := "General", submittedBy := 0, submittedByUsername := "alice",
    timestamp := 7, verifications := [], votes := 0, status := Status.pending,
    promotedAt := none, verifiedAt := none }

def exSWAfterNeg : ServerState :=
  { exSW with deals := setDeal exSW.deals 2 exDealNeg }

def exDraftGood : DealDraft :=
  { exDraftNeg with title := some "RTX", price := some 650 }

def exUser4 : User :=
  { id := 4, username := "dave", reputationScore := 100,
    verificationHistory := [], createdAt := 0 }

def exDealTwoValid : Deal :=
  { exDealStored with
    verifications :=
      [{ exVerifW with id := 10, verifierId := 2, verifierUsername := "bob" },
       { exVerifW with id := 11, verifierId := 3, verifierUsername := "carol" }] }

def exSW3v : ServerState :=
  { deals := fun i => if i = 1 then some exDealTwoValid else none,
    users := fun i => if i = 0 then some exUserW else if i = 4 then some exUser4 else none,
    verifications := fun _ => none, alerts := [], mode := Mode.decentralized,
    promotionThreshold := 5 }

def exDealVoted : Deal :=
  { exDealStored with verifications := [], votes := 5 }

def exSWP : ServerState :=
  { exSW with deals := fun i => if i = 1 then some exDealVoted else none }

/-! ## Shared lemmas -/

theorem setDeal_same (ds : Nat → Option Deal) (key : Nat) (d : Deal) :
    setDeal ds key d key = some d := by
  simp [setDeal]

theorem setDeal_other (ds : Nat → Option Deal) (key : Nat) (d : Deal) (i : Nat)
    (h : i ≠ key) : setDeal ds key d i = ds i := by
  simp [setDeal, h]

theorem mem_runAlerts_events (alerts : List Alert) (deal : Deal) (now : Nat) :
    ∀ e ∈ (runAlerts alerts deal now).2,
      ∃ aid lat, e = Event.alertTriggered aid deal.id lat := by
  induction alerts with
  | nil => intro e he; simp [runAlerts] at he
  | cons a rest ih =>
    intro e he
    simp only [runAlerts, List.mem_append] at he
    rcases he with h | h
    · unfold processAlert at h
      split at h
      · split at h
        · simp at h
        · simp at h
          exact ⟨a.id, _, h⟩
      · simp at h
    · exact ih e h

theorem mem_checkAlerts_events (alerts : List Alert) (deal : Deal) (now : Nat) :
    ∀ e ∈ (checkAlertsForDeal alerts deal now).2,
      e = Event.alertsEvaluated deal.id
        ∨ ∃ aid lat, e = Event.alertTriggered aid deal.id lat := by
  intro e he
  simp only [checkAlertsForDeal, List.mem_cons] at he
  rcases he with h | h
  · exact Or.inl h
  · exact Or.inr (mem_runAlerts_events alerts deal now e h)

theorem postDeal_ok (s : ServerState) (draft : DealDraft) (now nid : Nat)
    (s' : ServerState) (evs : List Event)
    (h : postDeal s draft now nid = Except.ok (s', evs)) :
    ∃ dl : Deal, dl.status = Status.pending ∧ s'.deals = setDeal s.deals nid dl
      ∧ s'.alerts = s.alerts ∧ s'.mode = s.mode
      ∧ evs = (if s.mode = Mode.centralized then [Event.schedulePromo nid] else [])
          ++ [Event.newDeal nid] := by
  obtain ⟨ti, pr, opr, ur, pc, sb⟩ := draft
  rcases ti with _ | t <;> rcases pr with _ | p <;> rcases ur with _ | u <;>
    rcases sb with _ | b <;> simp only [postDeal] at h <;> try exact Except.noConfusion h
  split at h
  · exact Except.noConfusion h
  · rcases hus : s.users b with _ | user <;> rw [hus] at h
    · exact Except.noConfusion h
    · have h' := Except.ok.inj h
      injection h' with h1 h2
      subst h1
      subst h2
      exact ⟨_, rfl, rfl, rfl, rfl, rfl⟩

theorem postVote_ok (s : ServerState) (dealId userId : Nat)
    (s' : ServerState) (evs : List Event)
    (h : postVote s dealId userId = Except.ok (s', evs)) :
    ∃ deal, s.deals dealId = some deal
      ∧ s' = { s with deals := setDeal s.deals dealId { deal with votes := deal.votes + 1 } }
      ∧ evs = [Event.dealUpdated deal.id] := by
  unfold postVote at h
  rcases hdl : s.deals dealId with _ | deal <;> rw [hdl] at h
  · exact Except.noConfusion h
  · rcases hus : s.users userId with _ | user <;> rw [hus] at h
    · exact Except.noConfusion h
    · have h' := Except.ok.inj h
      injection h' with h1 h2
      subst h1
      subst h2
      exact ⟨deal, rfl, rfl, rfl⟩

theorem postVerify_ok (s : ServerState) (dealId userId : Nat) (verdict : Verdict)
    (evidence : String) (now vid : Nat) (s' : ServerState) (evs : List Event)
    (h : postVerify s dealId userId verdict evidence now vid = Except.ok (s', evs)) :
    ∃ deal user, s.deals dealId = some deal ∧ s.users userId = some user
      ∧ deal.verifications.any (fun v => v.verifierId == userId) = false
      ∧ (s.mode = Mode.centralized →
          s' = (appendVerification s dealId userId deal user verdict evidence now vid).1
            ∧ evs = [Event.dealUpdated deal.id])
      ∧ (s.mode = Mode.decentralized →
          s' = (checkConsensus
                  (appendVerification s dealId userId deal user verdict evidence now vid).1
                  dealId
                  (appendVerification s dealId userId deal user verdict evidence now vid).2
                  now).1
            ∧ evs = (checkConsensus
                  (appendVerification s dealId userId deal user verdict evidence now vid).1
                  dealId
                  (appendVerification s dealId userId deal user verdict evidence now vid).2
                  now).2 ++ [Event.dealUpdated deal.id]) := by
  unfold postVerify at h
  split at h
  · exact Except.noConfusion h
  · rename_i deal hdl
    split at h
    · exact Except.noConfusion h
    · rename_i user hus
      split at h
      · exact Except.noConfusion h
      · rename_i hdup
        simp only [Bool.not_eq_true] at hdup
        have h' := Except.ok.inj h
        injection h' with h1 h2
        subst h1
        subst h2
        refine ⟨deal, user, hdl, hus, hdup, ?_, ?_⟩
        · intro hm
          rw [hm]
          exact ⟨by simp, by simp⟩
        · intro hm
          rw [hm]
          exact ⟨by simp, by simp⟩

theorem postAlert_ok (s : ServerState) (uid : Option Nat) (kw : Option String)
    (mp : Option Rat) (mv : Option Nat) (now aid : Nat)
    (s' : ServerState) (evs : List Event)
    (h : postAlert s uid kw mp mv now aid = Except.ok (s', evs)) :
    s'.deals = s.deals ∧ s'.mode = s.mode ∧ evs = [] := by
  rcases uid with _ | u <;> rcases kw with _ | k <;> rcases mp with _ | m <;>
    simp only [postAlert] at h <;> try exact Except.noConfusion h
  split at h
  · exact Except.noConfusion h
  · rcases hus : s.users u with _ | user <;> rw [hus] at h
    · exact Except.noConfusion h
    · have h' := Except.ok.inj h
      injection h' with h1 h2
      subst h1
      subst h2
      exact ⟨rfl, rfl, rfl⟩

theorem checkPromotion_spec (s : ServerState) (dealId now : Nat) :
    checkPromotion s dealId now = (s, [])
    ∨ ∃ deal, s.deals dealId = some deal ∧ deal.status = Status.pending
        ∧ deal.votes ≥ s.promotionThreshold
        ∧ checkPromotion s dealId now
          = ({ s with
                deals := setDeal s.deals dealId (promoteDeal deal now)
                alerts := (checkAlertsForDeal s.alerts (promoteDeal deal now) now).1 },
             Event.dealPromoted deal.id
               :: (checkAlertsForDeal s.alerts (promoteDeal deal now) now).2) := by
  unfold checkPromotion
  split
  · exact Or.inl rfl
  · rename_i deal hdl
    split
    · exact Or.inl rfl
    · rename_i hp
      split
      · rename_i hv
        exact Or.inr ⟨deal, hdl, not_not.1 hp, hv, rfl⟩
      · exact Or.inl rfl

theorem checkConsensus_spec (s : ServerState) (dealId : Nat) (deal : Deal) (now : Nat) :
    checkConsensus s dealId deal now = (s, [])
    ∨ (deal.status = Status.pending
        ∧ checkConsensus s dealId deal now
          = ({ s with
                deals := setDeal s.deals dealId (verifyDeal deal now)
                alerts := (checkAlertsForDeal s.alerts (verifyDeal deal now) now).1 },
             Event.dealVerified deal.id
               :: (checkAlertsForDeal s.alerts (verifyDeal deal now) now).2))
    ∨ (deal.status = Status.pending
        ∧ checkConsensus s dealId deal now
          = ({ s with deals := setDeal s.deals dealId (rejectDeal deal) },
             [Event.dealRejected deal.id])) := by
  unfold checkConsensus
  dsimp only
  split
  · rename_i hc
    exact Or.inr (Or.inl ⟨hc.2, rfl⟩)
  · split
    · rename_i hc
      exact Or.inr (Or.inr ⟨hc.2, rfl⟩)
    · exact Or.inl rfl

theorem filter_isSched_checkAlerts (alerts : List Alert) (deal : Deal) (now : Nat) :
    ((checkAlertsForDeal alerts deal now).2).filter isSched = [] := by
  rw [List.filter_eq_nil_iff]
  intro e he
  rcases mem_checkAlerts_events alerts deal now e he with h | ⟨aid, lat, h⟩ <;>
    subst h <;> simp [isSched]

theorem filter_isSched_checkConsensus (s : ServerState) (dealId : Nat) (deal : Deal)
    (now : Nat) : ((checkConsensus s dealId deal now).2).filter isSched = [] := by
  rcases checkConsensus_spec s dealId deal now with h | ⟨_, h⟩ | ⟨_, h⟩ <;> rw [h] <;>
    simp [isSched, List.filter_cons, filter_isSched_checkAlerts]

theorem filter_isSched_checkPromotion (s : ServerState) (dealId now : Nat) :
    ((checkPromotion s dealId now).2).filter isSched = [] := by
  rcases checkPromotion_spec s dealId now with h | ⟨deal, _, _, _, h⟩ <;> rw [h] <;>
    simp [isSched, List.filter_cons, filter_isSched_checkAlerts]

theorem checkConsensus_statusOk (s : ServerState) (dealId : Nat) (deal : Deal)
    (now : Nat) (hself : s.deals dealId = some deal) (id : Nat) (d d' : Deal)
    (hd : s.deals id = some d)
    (hd' : (checkConsensus s dealId deal now).1.deals id = some d') :
    statusOk d.status d'.status := by
  rcases checkConsensus_spec s dealId deal now with h | ⟨hp, h⟩ | ⟨hp, h⟩ <;>
    rw [h] at hd'
  · rw [hd] at hd'
    exact Or.inl (congrArg Deal.status (Option.some.inj hd'))
  · by_cases hik : id = dealId
    · subst hik
      have hde : d = deal := Option.some.inj (hd.symm.trans hself)
      have h3 : setDeal s.deals id (verifyDeal deal now) id = some d' := hd'
      rw [setDeal_same] at h3
      obtain rfl := Option.some.inj h3
      exact Or.inr ⟨by rw [hde, hp], Or.inr (Or.inl rfl)⟩
    · have h3 : setDeal s.deals dealId (verifyDeal deal now) id = some d' := hd'
      rw [setDeal_other _ _ _ _ hik, hd] at h3
      exact Or.inl (congrArg Deal.status (Option.some.inj h3))
  · by_cases hik : id = dealId
    · subst hik
      have hde : d = deal := Option.some.inj (hd.symm.trans hself)
      have h3 : setDeal s.deals id (rejectDeal deal) id = some d' := hd'
      rw [setDeal_same] at h3
      obtain rfl := Option.some.inj h3
      exact Or.inr ⟨by rw [hde, hp], Or.inr (Or.inr rfl)⟩
    · have h3 : setDeal s.deals dealId (rejectDeal deal) id = some d' := hd'
      rw [setDeal_other _ _ _ _ hik, hd] at h3
      exact Or.inl (congrArg Deal.status (Option.some.inj h3))

theorem alertsEvaluated_mem_checkAlerts_iff (alerts : List Alert) (dl : Deal)
    (now d : Nat) :
    Event.alertsEvaluated d ∈ (checkAlertsForDeal alerts dl now).2 ↔ d = dl.id := by
  simp only [checkAlertsForDeal, List.mem_cons]
  constructor
  · rintro (h | h)
    · exact Event.alertsEvaluated.inj h
    · obtain ⟨aid, lat, hE⟩ := mem_runAlerts_events alerts dl now _ h
      exact Event.noConfusion hE
  · rintro rfl
    exact Or.inl rfl

theorem promoted_not_mem_checkAlerts (alerts : List Alert) (dl : Deal) (now d : Nat) :
    Event.dealPromoted d ∉ (checkAlertsForDeal alerts dl now).2 := by
  intro h
  rcases mem_checkAlerts_events alerts dl now _ h with h1 | ⟨aid, lat, h1⟩ <;>
    exact Event.noConfusion h1

theorem verified_not_mem_checkAlerts (alerts : List Alert) (dl : Deal) (now d : Nat) :
    Event.dealVerified d ∉ (checkAlertsForDeal alerts dl now).2 := by
  intro h
  rcases mem_checkAlerts_events alerts dl now _ h with h1 | ⟨aid, lat, h1⟩ <;>
    exact Event.noConfusion h1

theorem c7_of_no_events {evs : List Event} {d : Nat} {C : Prop}
    (h1 : Event.alertsEvaluated d ∉ evs) (h2 : Event.dealPromoted d ∉ evs)
    (h3 : Event.dealVerified d ∉ evs) :
    (Event.alertsEvaluated d ∈ evs
      ↔ (Event.dealPromoted d ∈ evs ∨ Event.dealVerified d ∈ evs))
    ∧ ((Event.dealPromoted d ∈ evs ∨ Event.dealVerified d ∈ evs) → C) :=
  ⟨⟨fun h => absurd h h1,
    fun h => h.elim (fun hh => absurd hh h2) (fun hh => absurd hh h3)⟩,
   fun h => h.elim (fun hh => absurd hh h2) (fun hh => absurd hh h3)⟩

/-! ## Claim theorems -/

/-- Claim C5: the alert matcher fires iff the deal's title or category
case-insensitively contains the alert's keyword phrase, the price is at
most the alert's maximum, and the verification count reaches the alert's
minimum; in particular a maxPrice-500 alert never matches a deal priced
501.  The hypothesis records that stored alerts hold lowercased keyword
phrases, as the alert-creation handler guarantees. -/
theorem alertMatchCharacterization (alert : Alert) (deal : Deal)
    (hlow : lowerStr alert.productKeywords = alert.productKeywords) :
    alertMatches alert deal = specAlertMatches alert deal
      ∧ (alert.maxPrice = 500 → deal.price = 501 → alertMatches alert deal = false) := by
  constructor
  · simp only [alertMatches, specAlertMatches, hlow]
  · intro hmax hprice
    simp only [alertMatches, hmax, hprice]
    simp [(by decide : decide ((501 : Rat) ≤ 500) = false)]

theorem alertMatchCharacterization_w :
    alertMatches exAlertW exDealW = specAlertMatches exAlertW exDealW
      ∧ (exAlertW.maxPrice = 500 → exDealW.price = 501
          → alertMatches exAlertW exDealW = false) :=
  alertMatchCharacterization exAlertW exDealW (by decide)

/-- Claim C6: an alert fires for a given deal at most once: once the
deal's id is in the alert's triggered set, re-evaluating the alert
against that deal changes nothing and emits nothing; any evaluation
that emits a notification puts the deal's id into the triggered set;
and membership in the triggered set survives evaluations against other
deals. -/
theorem alertFiresAtMostOnce (now now' : Nat) (deal deal' : Deal) (alert : Alert)
    (hmem : deal.id ∈ alert.triggered) :
    processAlert now deal alert = (alert, [])
      ∧ deal.id ∈ (processAlert now' deal' alert).1.triggered := by
  constructor
  · unfold processAlert
    split
    · rw [if_pos (by simpa using hmem)]
    · rfl
  · unfold processAlert
    split
    · split
      · exact hmem
      · simpa using Or.inl hmem
    · exact hmem

theorem alertFiresAtMostOnce_w :
    processAlert 7 exDealW exAlertTriggeredW = (exAlertTriggeredW, [])
      ∧ exDealW.id ∈ (processAlert 9 exDealW2 exAlertTriggeredW).1.triggered :=
  alertFiresAtMostOnce 7 9 exDealW exDealW2 exAlertTriggeredW (by decide)

/-- Claim C8: a second verification by the same user on the same deal
fails with the duplicate error, and the server step leaves the whole
state (deal record, tallies, verification store) exactly as before,
emitting nothing. -/
theorem duplicateVerificationRejected (s : ServerState) (dealId userId : Nat)
    (verdict : Verdict) (evidence : String) (now vid : Nat) (deal : Deal) (user : User)
    (hdeal : s.deals dealId = some deal) (huser : s.users userId = some user)
    (hdup : deal.verifications.any (fun v => v.verifierId == userId) = true) :
    postVerify s dealId userId verdict evidence now vid
        = Except.error ApiError.duplicate
      ∧ step s (Op.verify dealId userId verdict evidence now vid) = (s, []) := by
  have herr : postVerify s dealId userId verdict evidence now vid
      = Except.error ApiError.duplicate := by
    simp [postVerify, hdeal, huser, hdup]
  exact ⟨herr, by simp [step, herr]⟩

theorem duplicateVerificationRejected_w :
    postVerify exSW 1 0 Verdict.valid "" 9 9 = Except.error ApiError.duplicate
      ∧ step exSW (Op.verify 1 0 Verdict.valid "" 9 9) = (exSW, []) :=
  duplicateVerificationRejected exSW 1 0 Verdict.valid "" 9 9 exDealStored exUserW
    rfl rfl (by decide)

/-- Claim C10: creating an alert with the minimum-verification field
omitted or equal to 0 stores a requirement of 3, so the stored alert
never matches a deal carrying zero verification records (the matcher
compares the requirement against the deal's verification count), and
evaluating it against such a deal is a no-op. -/
theorem defaultMinVerifications (s : ServerState) (uid : Nat) (kw : String) (mp : Rat)
    (minV : Option Nat) (now aid : Nat) (user : User)
    (huser : s.users uid = some user) (hkw : kw.isEmpty = false) (hmp : mp ≠ 0)
    (hmin : minV = none ∨ minV = some 0) :
    ∃ a : Alert,
      postAlert s (some uid) (some kw) (some mp) minV now aid
          = Except.ok ({ s with alerts := s.alerts ++ [a] }, [])
        ∧ a.minVerifications = 3
        ∧ ∀ (deal : Deal) (n : Nat), deal.verifications = [] →
            alertMatches a deal = false ∧ processAlert n deal a = (a, []) := by
  have hcond : (kw.isEmpty || decide (mp = 0)) = false := by
    simp [hkw, hmp]
  refine ⟨{ id := aid, userId := uid, productKeywords := lowerStr kw, maxPrice := mp,
            minVerifications := 3, createdAt := now, triggered := [] }, ?_, rfl, ?_⟩
  · rcases hmin with h | h <;> subst h <;> simp [postAlert, hkw, hmp, huser]
  · intro deal n hvz
    have hm : alertMatches
        { id := aid, userId := uid, productKeywords := lowerStr kw, maxPrice := mp,
          minVerifications := 3, createdAt := now, triggered := [] } deal = false := by
      simp [alertMatches, hvz]
    exact ⟨hm, by simp [processAlert, hm]⟩

theorem defaultMinVerifications_w :
    ∃ a : Alert,
      postAlert exSW (some 0) (some "laptop") (some 500) none 3 4
          = Except.ok ({ exSW with alerts := exSW.alerts ++ [a] }, [])
        ∧ a.minVerifications = 3
        ∧ ∀ (deal : Deal) (n : Nat), deal.verifications = [] →
            alertMatches a deal = false ∧ processAlert n deal a = (a, []) :=
  defaultMinVerifications exSW 0 "laptop" 500 none 3 4 exUserW rfl rfl (by decide)
    (Or.inl rfl)

/-- Claim C2: consensus evaluation transitions a still-pending deal to
verified (stamping `verifiedAt`) iff at least 3 verifications are valid;
otherwise to rejected iff at least 3 are invalid and the deal is still
pending; otherwise it changes nothing — and when both counts reach the
threshold the valid branch wins (checked first). -/
theorem consensusEvaluation (s : ServerState) (dealId : Nat) (deal : Deal) (now : Nat) :
    (deal.status = Status.pending →
      countVerdict deal.verifications Verdict.valid ≥ consensusThreshold →
      (checkConsensus s dealId deal now).1.deals dealId
          = some { deal with status := Status.verified, verifiedAt := some now }
        ∧ Event.dealVerified deal.id ∈ (checkConsensus s dealId deal now).2)
    ∧ (deal.status = Status.pending →
        countVerdict deal.verifications Verdict.valid < consensusThreshold →
        countVerdict deal.verifications Verdict.invalid ≥ consensusThreshold →
      checkConsensus s dealId deal now
        = ({ s with deals := setDeal s.deals dealId { deal with status := Status.rejected } },
           [Event.dealRejected deal.id]))
    ∧ ((deal.status ≠ Status.pending
         ∨ (countVerdict deal.verifications Verdict.valid < consensusThreshold
             ∧ countVerdict deal.verifications Verdict.invalid < consensusThreshold)) →
      checkConsensus s dealId deal now = (s, []))
    ∧ (deal.status = Status.pending →
        countVerdict deal.verifications Verdict.valid ≥ consensusThreshold →
        countVerdict deal.verifications Verdict.invalid ≥ consensusThreshold →
      ((checkConsensus s dealId deal now).1.deals dealId).map Deal.status
        = some Status.verified) := by
  refine ⟨?_, ?_, ?_, ?_⟩
  · intro hp hv
    unfold checkConsensus
    rw [if_pos ⟨hv, hp⟩]
    exact ⟨setDeal_same _ _ _, by simp [verifyDeal]⟩
  · intro hp hv hi
    unfold checkConsensus
    rw [if_neg (fun h => absurd h.1 (Nat.not_le.2 hv)), if_pos ⟨hi, hp⟩]
    rfl
  · intro h
    unfold checkConsensus
    rcases h with h | ⟨hv, hi⟩
    · rw [if_neg (fun hx => h hx.2), if_neg (fun hx => h hx.2)]
    · rw [if_neg (fun hx => absurd hx.1 (Nat.not_le.2 hv)),
          if_neg (fun hx => absurd hx.1 (Nat.not_le.2 hi))]
  · intro hp hv _
    unfold checkConsensus
    rw [if_pos ⟨hv, hp⟩]
    simp [setDeal_same, verifyDeal]

theorem consensusEvaluation_w :
    (checkConsensus exSW3 1 exDealThreeValid 9).1.deals 1
        = some { exDealThreeValid with status := Status.verified, verifiedAt := some 9 }
      ∧ Event.dealVerified exDealThreeValid.id
          ∈ (checkConsensus exSW3 1 exDealThreeValid 9).2 :=
  (consensusEvaluation exSW3 1 exDealThreeValid 9).1 rfl (by decide)

/-- Claim C9 counterexample: a draft whose price is the negative number
-5 passes the truthiness validation of `POST /api/deals` and creates a
pending deal priced -5, so submission does not fail whenever the price
is not a positive number. -/
theorem submitNegativePriceAccepted :
    postDeal exSW exDraftNeg 7 2
        = Except.ok (exSWAfterNeg, [Event.schedulePromo 2, Event.newDeal 2])
      ∧ exDraftNeg.price = some (-5)
      ∧ exSWAfterNeg.deals 2 = some exDealNeg
      ∧ exDealNeg.price = -5 ∧ exDealNeg.status = Status.pending := by
  refine ⟨rfl, rfl, ?_, rfl, rfl⟩
  simp [exSWAfterNeg, setDeal_same]

/-- Claim C9 (amended): submission fails with ValidationError whenever
title, price, URL, or submitter is missing, an included title or URL is
the empty string, or the price equals 0 (JavaScript falsiness); any
other present price — including a negative one — passes validation, and
with a known submitter a pending deal is created with zero votes, zero
verifications, and the given price. -/
theorem submitValidation (s : ServerState) (draft : DealDraft) (now newId : Nat) :
    ((draft.title = none ∨ draft.title = some "" ∨ draft.price = none
        ∨ draft.price = some 0 ∨ draft.url = none ∨ draft.url = some ""
        ∨ draft.submittedBy = none) →
      postDeal s draft now newId = Except.error ApiError.validation)
    ∧ (∀ t p u uid user, draft.title = some t → t ≠ "" → draft.price = some p →
        p ≠ 0 → draft.url = some u → u ≠ "" → draft.submittedBy = some uid →
        s.users uid = some user →
        ∃ s' evs dl, postDeal s draft now newId = Except.ok (s', evs)
          ∧ s'.deals newId = some dl ∧ dl.status = Status.pending ∧ dl.votes = 0
          ∧ dl.verifications = [] ∧ dl.price = p) := by
  constructor
  · intro h
    obtain ⟨ti, pr, opr, ur, pc, sb⟩ := draft
    simp only at h
    rcases ti with _ | t <;> rcases pr with _ | p <;> rcases ur with _ | u <;>
      rcases sb with _ | b <;> simp_all [postDeal, String.isEmpty_iff]
    intro h1 h2 h3
    tauto
  · intro t p u uid user ht htne hp hpne hu hune hb huser
    have hti : t.isEmpty = false := by
      cases hti : t.isEmpty with
      | false => rfl
      | true => exact absurd ((String.isEmpty_iff t).1 hti) htne
    have hui : u.isEmpty = false := by
      cases hui : u.isEmpty with
      | false => rfl
      | true => exact absurd ((String.isEmpty_iff u).1 hui) hune
    simp only [postDeal, ht, hp, hu, hb, hti, hui, huser, hpne, decide_eq_true_eq,
      Bool.false_or, Bool.or_false, if_false, decide_eq_false hpne]
    refine ⟨_, _, _, rfl, setDeal_same _ _ _, rfl, rfl, rfl, rfl⟩

theorem submitValidation_w :
    ∃ s' evs dl, postDeal exSW exDraftGood 7 2 = Except.ok (s', evs)
      ∧ s'.deals 2 = some dl ∧ dl.status = Status.pending ∧ dl.votes = 0
      ∧ dl.verifications = [] ∧ dl.price = 650 :=
  (submitValidation exSW exDraftGood 7 2).2 "RTX" 650 "u" 0 exUserW rfl
    (by decide) rfl (by decide) rfl (by decide) rfl rfl

/-- Claim C4: the transition rule is selected by the global mode at the
moment the triggering event occurs.  A mode switch only replaces the
mode field and emits a configuration event — no deal is re-evaluated;
a recorded verification that completes a valid consensus produces the
verified transition iff the mode is decentralized at that moment; and
submission schedules a promotion check iff the mode is centralized at
that moment. -/
theorem modeSelectsRule (s : ServerState) (m : Mode) :
    (setMode s m).1.deals = s.deals ∧ (setMode s m).1.alerts = s.alerts
      ∧ (setMode s m).1.users = s.users
      ∧ (setMode s m).1.verifications = s.verifications
      ∧ (setMode s m).1.mode = m
      ∧ (setMode s m).2 = [Event.configUpdated m]
      ∧ (∀ dealId userId evidence now vid deal user,
          s.deals dealId = some deal → s.users userId = some user →
          deal.status = Status.pending →
          deal.verifications.any (fun v => v.verifierId == userId) = false →
          countVerdict deal.verifications Verdict.valid + 1 ≥ consensusThreshold →
          ∃ s' evs, postVerify s dealId userId Verdict.valid evidence now vid
              = Except.ok (s', evs)
            ∧ (Event.dealVerified deal.id ∈ evs ↔ s.mode = Mode.decentralized))
      ∧ (∀ draft now nid s' evs, postDeal s draft now nid = Except.ok (s', evs) →
          (Event.schedulePromo nid ∈ evs ↔ s.mode = Mode.centralized)) := by
  refine ⟨rfl, rfl, rfl, rfl, rfl, rfl, ?_, ?_⟩
  · intro dealId userId evidence now vid deal user hdl hus hp hdup hv
    have hpv : postVerify s dealId userId Verdict.valid evidence now vid
        = Except.ok
            ((if s.mode = Mode.decentralized then
                checkConsensus
                  (appendVerification s dealId userId deal user Verdict.valid evidence now vid).1
                  dealId
                  (appendVerification s dealId userId deal user Verdict.valid evidence now vid).2
                  now
              else
                ((appendVerification s dealId userId deal user Verdict.valid evidence now vid).1,
                 [])).1,
             (if s.mode = Mode.decentralized then
                checkConsensus
                  (appendVerification s dealId userId deal user Verdict.valid evidence now vid).1
                  dealId
                  (appendVerification s dealId userId deal user Verdict.valid evidence now vid).2
                  now
              else
                ((appendVerification s dealId userId deal user Verdict.valid evidence now vid).1,
                 [])).2 ++ [Event.dealUpdated deal.id]) := by
      simp only [postVerify, hdl, hus, hdup, Bool.false_eq_true, if_false]
    refine ⟨_, _, hpv, ?_⟩
    rcases hm : s.mode with _ | _
    · simp [hm]
    · have hp2 : (appendVerification s dealId userId deal user Verdict.valid
          evidence now vid).2.status = Status.pending := by
        simpa [appendVerification] using hp
      have hv3 : countVerdict (appendVerification s dealId userId deal user Verdict.valid
            evidence now vid).2.verifications Verdict.valid ≥ consensusThreshold := by
        simpa [appendVerification, countVerdict, List.filter_append] using hv
      have hmem : Event.dealVerified deal.id
          ∈ (checkConsensus
              (appendVerification s dealId userId deal user Verdict.valid evidence now vid).1
              dealId
              (appendVerification s dealId userId deal user Verdict.valid evidence now vid).2
              now).2 := by
        unfold checkConsensus
        dsimp only
        rw [if_pos ⟨hv3, hp2⟩]
        simp [verifyDeal, appendVerification]
      simp [hm, List.mem_append, hmem]
  · intro draft now nid s' evs h
    obtain ⟨dl, _, _, _, _, hev⟩ := postDeal_ok s draft now nid s' evs h
    subst hev
    rcases hm : s.mode with _ | _ <;> simp [hm]

theorem modeSelectsRule_w :
    ∃ s' evs, postVerify exSW3v 1 4 Verdict.valid "" 9 99 = Except.ok (s', evs)
      ∧ (Event.dealVerified exDealTwoValid.id ∈ evs ↔ exSW3v.mode = Mode.decentralized) :=
  (modeSelectsRule exSW3v Mode.centralized).2.2.2.2.2.2.1 1 4 "" 9 99
    exDealTwoValid exUser4 rfl rfl rfl (by decide) (by decide)

/-- Claim C3: exactly one promotion check is scheduled, at submission,
and only in centralized mode; no other operation ever schedules one;
when the check fires on a still-pending deal it promotes iff the vote
tally reached the threshold, stamping the promotion timestamp, and
otherwise leaves the whole state untouched, so the deal stays pending
with no further check. -/
theorem singlePromotionCheck (s : ServerState) :
    (∀ draft now nid s' evs, postDeal s draft now nid = Except.ok (s', evs) →
        (s.mode = Mode.centralized → evs.filter isSched = [Event.schedulePromo nid])
      ∧ (s.mode = Mode.decentralized → evs.filter isSched = []))
    ∧ (∀ op : Op, (∀ d n i, op ≠ Op.submit d n i) → (step s op).2.filter isSched = [])
    ∧ (∀ dealId now deal, s.deals dealId = some deal → deal.status = Status.pending →
        (deal.votes ≥ s.promotionThreshold →
          (checkPromotion s dealId now).1.deals dealId
              = some { deal with status := Status.promoted, promotedAt := some now }
            ∧ Event.dealPromoted deal.id ∈ (checkPromotion s dealId now).2)
        ∧ (deal.votes < s.promotionThreshold →
            checkPromotion s dealId now = (s, []))) := by
  refine ⟨?_, ?_, ?_⟩
  · intro draft now nid s' evs h
    obtain ⟨dl, _, _, _, _, hev⟩ := postDeal_ok s draft now nid s' evs h
    subst hev
    constructor <;> intro hm <;> simp [hm, isSched]
  · intro op hnot
    cases op with
    | submit d n i => exact absurd rfl (hnot d n i)
    | vote dealId userId =>
      simp only [step]
      cases hres : postVote s dealId userId with
      | error e => simp
      | ok r =>
        obtain ⟨deal, _, _, hev⟩ := postVote_ok s dealId userId r.1 r.2 hres
        simp [hev, isSched]
    | verify dealId userId verdict evidence now vid =>
      simp only [step]
      cases hres : postVerify s dealId userId verdict evidence now vid with
      | error e => simp
      | ok r =>
        obtain ⟨deal, user, _, _, _, hcen, hdec⟩ :=
          postVerify_ok s dealId userId verdict evidence now vid r.1 r.2 hres
        rcases hm : s.mode with _ | _
        · obtain ⟨_, hev⟩ := hcen hm
          simp [hev, isSched]
        · obtain ⟨_, hev⟩ := hdec hm
          simp [hev, List.filter_append, filter_isSched_checkConsensus, isSched]
    | promoCheck dealId now =>
      simpa [step] using filter_isSched_checkPromotion s dealId now
    | alertCreate uid kw mp mv now aid =>
      simp only [step]
      cases hres : postAlert s uid kw mp mv now aid with
      | error e => simp
      | ok r =>
        obtain ⟨_, _, hev⟩ := postAlert_ok s uid kw mp mv now aid r.1 r.2 hres
        simp [hev]
    | alertDelete aid => simp [step, deleteAlertOp]
    | modeSet m => simp [step, setMode, isSched]
  · intro dealId now deal hdl hp
    constructor
    · intro hv
      unfold checkPromotion
      rw [hdl]
      dsimp only
      rw [if_neg (fun hx => hx hp), if_pos hv]
      exact ⟨setDeal_same _ _ _, by simp [promoteDeal]⟩
    · intro hlt
      unfold checkPromotion
      rw [hdl]
      dsimp only
      rw [if_neg (fun hx => hx hp), if_neg (Nat.not_le.2 hlt)]

theorem singlePromotionCheck_w :
    (checkPromotion exSWP 1 9).1.deals 1
        = some { exDealVoted with status := Status.promoted, promotedAt := some 9 }
      ∧ Event.dealPromoted exDealVoted.id ∈ (checkPromotion exSWP 1 9).2 :=
  ((singlePromotionCheck exSWP).2.2 1 9 exDealVoted rfl rfl).1 (by decide)

/-- Claim C1: across every server operation, a deal's status either
stays the same or moves from pending to one of the terminal statuses
promoted, verified, rejected; no operation leaves a terminal status or
re-enters pending.  The freshness hypothesis records that submission
draws an unused id (`uuidv4()`). -/
theorem statusTransitionsOneWay (s : ServerState) (op : Op) (hf : freshFor s op)
    (id : Nat) (d d' : Deal)
    (hd : s.deals id = some d) (hd' : (step s op).1.deals id = some d') :
    statusOk d.status d'.status := by
  cases op with
  | submit draft n nid =>
    simp only [step] at hd'
    cases hres : postDeal s draft n nid with
    | error e =>
      rw [hres] at hd'
      have h2 : s.deals id = some d' := hd'
      rw [hd] at h2
      exact Or.inl (congrArg Deal.status (Option.some.inj h2))
    | ok r =>
      obtain ⟨dl, hst, hdeals, _, _, _⟩ := postDeal_ok s draft n nid r.1 r.2 hres
      rw [hres] at hd'
      have h2 : r.1.deals id = some d' := hd'
      rw [hdeals] at h2
      by_cases hik : id = nid
      · subst hik
        have hnone : s.deals id = none := hf
        rw [hnone] at hd
        exact Option.noConfusion hd
      · rw [setDeal_other _ _ _ _ hik, hd] at h2
        exact Or.inl (congrArg Deal.status (Option.some.inj h2))
  | vote dealId userId =>
    simp only [step] at hd'
    cases hres : postVote s dealId userId with
    | error e =>
      rw [hres] at hd'
      have h2 : s.deals id = some d' := hd'
      rw [hd] at h2
      exact Or.inl (congrArg Deal.status (Option.some.inj h2))
    | ok r =>
      obtain ⟨deal, hdl, hs', _⟩ := postVote_ok s dealId userId r.1 r.2 hres
      rw [hres] at hd'
      have h2 : r.1.deals id = some d' := hd'
      rw [hs'] at h2
      have h3 : setDeal s.deals dealId { deal with votes := deal.votes + 1 } id
          = some d' := h2
      by_cases hik : id = dealId
      · subst hik
        have hde : d = deal := Option.some.inj (hd.symm.trans hdl)
        rw [setDeal_same] at h3
        obtain rfl := Option.some.inj h3
        exact Or.inl (by rw [hde])
      · rw [setDeal_other _ _ _ _ hik, hd] at h3
        exact Or.inl (congrArg Deal.status (Option.some.inj h3))
  | verify dealId userId verdict evidence now vid =>
    simp only [step] at hd'
    cases hres : postVerify s dealId userId verdict evidence now vid with
    | error e =>
      rw [hres] at hd'
      have h2 : s.deals id = some d' := hd'
      rw [hd] at h2
      exact Or.inl (congrArg Deal.status (Option.some.inj h2))
    | ok r =>
      obtain ⟨deal, user, hdl, hus, hdup, hcen, hdec⟩ :=
        postVerify_ok s dealId userId verdict evidence now vid r.1 r.2 hres
      rw [hres] at hd'
      have h2 : r.1.deals id = some d' := hd'
      rcases hm : s.mode with _ | _
      · obtain ⟨hs', _⟩ := hcen hm
        rw [hs'] at h2
        have h3 : setDeal s.deals dealId
            (appendVerification s dealId userId deal user verdict evidence now vid).2 id
            = some d' := h2
        by_cases hik : id = dealId
        · subst hik
          have hde : d = deal := Option.some.inj (hd.symm.trans hdl)
          rw [setDeal_same] at h3
          obtain rfl := Option.some.inj h3
          exact Or.inl (by rw [hde]; rfl)
        · rw [setDeal_other _ _ _ _ hik, hd] at h3
          exact Or.inl (congrArg Deal.status (Option.some.inj h3))
      · obtain ⟨hs', _⟩ := hdec hm
        rw [hs'] at h2
        have hself : (appendVerification s dealId userId deal user verdict evidence
              now vid).1.deals dealId
            = some (appendVerification s dealId userId deal user verdict evidence
              now vid).2 := setDeal_same _ _ _
        by_cases hik : id = dealId
        · subst hik
          have hde : d = deal := Option.some.inj (hd.symm.trans hdl)
          have hmid := checkConsensus_statusOk _ _ _ now hself id _ d' hself h2
          have heq : d.status = (appendVerification s id userId deal user verdict
              evidence now vid).2.status := by rw [hde]; rfl
          rw [heq]
          exact hmid
        · have hdP1 : (appendVerification s dealId userId deal user verdict evidence
              now vid).1.deals id = some d := by
            have : setDeal s.deals dealId (appendVerification s dealId userId deal user
                verdict evidence now vid).2 id = s.deals id :=
              setDeal_other _ _ _ _ hik
            rw [show (appendVerification s dealId userId deal user verdict evidence
                now vid).1.deals = setDeal s.deals dealId (appendVerification s dealId
                userId deal user verdict evidence now vid).2 from rfl, this, hd]
          exact checkConsensus_statusOk _ _ _ now hself id d d' hdP1 h2
  | promoCheck dealId now =>
    have h2 : (checkPromotion s dealId now).1.deals id = some d' := hd'
    rcases checkPromotion_spec s dealId now with h | ⟨deal, hdl, hp, hv, h⟩ <;>
      rw [h] at h2
    · rw [hd] at h2
      exact Or.inl (congrArg Deal.status (Option.some.inj h2))
    · by_cases hik : id = dealId
      · subst hik
        have hde : d = deal := Option.some.inj (hd.symm.trans hdl)
        have h3 : setDeal s.deals id (promoteDeal deal now) id = some d' := h2
        rw [setDeal_same] at h3
        obtain rfl := Option.some.inj h3
        exact Or.inr ⟨by rw [hde, hp], Or.inl rfl⟩
      · have h3 : setDeal s.deals dealId (promoteDeal deal now) id = some d' := h2
        rw [setDeal_other _ _ _ _ hik, hd] at h3
        exact Or.inl (congrArg Deal.status (Option.some.inj h3))
  | alertCreate uid kw mp mv now aid =>
    simp only [step] at hd'
    cases hres : postAlert s uid kw mp mv now aid with
    | error e =>
      rw [hres] at hd'
      have h2 : s.deals id = some d' := hd'
      rw [hd] at h2
      exact Or.inl (congrArg Deal.status (Option.some.inj h2))
    | ok r =>
      obtain ⟨hdeals, _, _⟩ := postAlert_ok s uid kw mp mv now aid r.1 r.2 hres
      rw [hres] at hd'
      have h2 : r.1.deals id = some d' := hd'
      rw [hdeals, hd] at h2
      exact Or.inl (congrArg Deal.status (Option.some.inj h2))
  | alertDelete aid =>
    have h2 : s.deals id = some d' := hd'
    rw [hd] at h2
    exact Or.inl (congrArg Deal.status (Option.some.inj h2))
  | modeSet m =>
    have h2 : s.deals id = some d' := hd'
    rw [hd] at h2
    exact Or.inl (congrArg Deal.status (Option.some.inj h2))

theorem statusTransitionsOneWay_w :
    statusOk exDealVoted.status
      (promoteDeal exDealVoted 9).status :=
  statusTransitionsOneWay exSWP (Op.promoCheck 1 9) trivial 1 exDealVoted
    (promoteDeal exDealVoted 9) rfl rfl

/-- Claim C7: alert evaluation runs exactly on the two success
transitions: across every server operation, the alert-evaluation marker
appears among the emitted events iff a promotion or verification event
for that deal does, and any such event certifies an actual
pending-to-terminal transition of that deal — so neither a rejection
nor a vote or verification without a status transition ever evaluates
alerts.  The hypothesis records that the deal store keys each record
under its own id. -/
theorem alertEvaluationOnSuccessOnly (s : ServerState) (op : Op)
    (hk : keyConsistent s) (d : Nat) :
    (Event.alertsEvaluated d ∈ (step s op).2
      ↔ (Event.dealPromoted d ∈ (step s op).2 ∨ Event.dealVerified d ∈ (step s op).2))
    ∧ ((Event.dealPromoted d ∈ (step s op).2 ∨ Event.dealVerified d ∈ (step s op).2) →
        ∃ old nw, s.deals d = some old ∧ old.status = Status.pending
          ∧ (step s op).1.deals d = some nw ∧ nw.status ≠ Status.pending) := by
  cases op with
  | submit draft n nid =>
    simp only [step]
    cases hres : postDeal s draft n nid with
    | error e =>
      exact c7_of_no_events (by simp) (by simp) (by simp)
    | ok r =>
      obtain ⟨dl, _, _, _, _, hev⟩ := postDeal_ok s draft n nid r.1 r.2 hres
      have hA : Event.alertsEvaluated d ∉ r.2 := by
        rw [hev]; rcases s.mode <;> simp
      have hB : Event.dealPromoted d ∉ r.2 := by
        rw [hev]; rcases s.mode <;> simp
      have hC : Event.dealVerified d ∉ r.2 := by
        rw [hev]; rcases s.mode <;> simp
      exact c7_of_no_events hA hB hC
  | vote dealId userId =>
    simp only [step]
    cases hres : postVote s dealId userId with
    | error e =>
      exact c7_of_no_events (by simp) (by simp) (by simp)
    | ok r =>
      obtain ⟨deal, _, _, hev⟩ := postVote_ok s dealId userId r.1 r.2 hres
      have hA : Event.alertsEvaluated d ∉ r.2 := by rw [hev]; simp
      have hB : Event.dealPromoted d ∉ r.2 := by rw [hev]; simp
      have hC : Event.dealVerified d ∉ r.2 := by rw [hev]; simp
      exact c7_of_no_events hA hB hC
  | verify dealId userId verdict evidence now vid =>
    simp only [step]
    cases hres : postVerify s dealId userId verdict evidence now vid with
    | error e =>
      exact c7_of_no_events (by simp) (by simp) (by simp)
    | ok r =>
      obtain ⟨deal, user, hdl, hus, hdup, hcen, hdec⟩ :=
        postVerify_ok s dealId userId verdict evidence now vid r.1 r.2 hres
      rcases hm : s.mode with _ | _
      · obtain ⟨_, hev⟩ := hcen hm
        have hA : Event.alertsEvaluated d ∉ r.2 := by rw [hev]; simp
        have hB : Event.dealPromoted d ∉ r.2 := by rw [hev]; simp
        have hC : Event.dealVerified d ∉ r.2 := by rw [hev]; simp
        exact c7_of_no_events hA hB hC
      · obtain ⟨hs', hev⟩ := hdec hm
        rcases checkConsensus_spec
            (appendVerification s dealId userId deal user verdict evidence now vid).1
            dealId
            (appendVerification s dealId userId deal user verdict evidence now vid).2
            now with hcc | ⟨hp, hcc⟩ | ⟨hp, hcc⟩
        · have hev2 : r.2 = [Event.dealUpdated deal.id] := by rw [hev, hcc]; rfl
          have hA : Event.alertsEvaluated d ∉ r.2 := by rw [hev2]; simp
          have hB : Event.dealPromoted d ∉ r.2 := by rw [hev2]; simp
          have hC : Event.dealVerified d ∉ r.2 := by rw [hev2]; simp
          exact c7_of_no_events hA hB hC
        · have hev2 : r.2 = (Event.dealVerified deal.id
              :: (checkAlertsForDeal
                   (appendVerification s dealId userId deal user verdict evidence
                     now vid).1.alerts
                   (verifyDeal (appendVerification s dealId userId deal user verdict
                     evidence now vid).2 now) now).2)
              ++ [Event.dealUpdated deal.id] := by rw [hev, hcc]; rfl
          have hback : (Event.dealPromoted d ∈ r.2 ∨ Event.dealVerified d ∈ r.2) →
              d = deal.id := by
            intro h1
            rcases h1 with h2 | h2 <;> rw [hev2] at h2 <;>
              rcases List.mem_append.1 h2 with h3 | h3
            · rcases List.mem_cons.1 h3 with h4 | h4
              · exact Event.noConfusion h4
              · exact absurd h4 (promoted_not_mem_checkAlerts _ _ _ _)
            · simp at h3
            · rcases List.mem_cons.1 h3 with h4 | h4
              · exact Event.dealVerified.inj h4
              · exact absurd h4 (verified_not_mem_checkAlerts _ _ _ _)
            · simp at h3
          have hgoal : (Event.alertsEvaluated d ∈ r.2
              ↔ (Event.dealPromoted d ∈ r.2 ∨ Event.dealVerified d ∈ r.2))
              ∧ ((Event.dealPromoted d ∈ r.2 ∨ Event.dealVerified d ∈ r.2) →
                  ∃ old nw, s.deals d = some old ∧ old.status = Status.pending
                    ∧ r.1.deals d = some nw ∧ nw.status ≠ Status.pending) := by
            constructor
            · constructor
              · intro h1
                rw [hev2] at h1
                rcases List.mem_append.1 h1 with h2 | h2
                · rcases List.mem_cons.1 h2 with h3 | h3
                  · exact Event.noConfusion h3
                  · have hid : d = deal.id :=
                      (alertsEvaluated_mem_checkAlerts_iff
                        (appendVerification s dealId userId deal user verdict
                          evidence now vid).1.alerts
                        (verifyDeal (appendVerification s dealId userId deal user
                          verdict evidence now vid).2 now) now d).1 h3
                    subst hid
                    right
                    rw [hev2]
                    exact List.mem_append.2 (Or.inl (List.mem_cons_self _ _))
                · simp at h2
              · intro h1
                have hid := hback h1
                subst hid
                rw [hev2]
                exact List.mem_append.2 (Or.inl (List.mem_cons_of_mem _
                  ((alertsEvaluated_mem_checkAlerts_iff _ _ _ _).2 rfl)))
            · intro h1
              have hid := hback h1
              subst hid
              have hkey : deal.id = dealId := hk dealId deal hdl
              have hdp : deal.status = Status.pending := hp
              have hnew : r.1.deals deal.id
                  = some (verifyDeal (appendVerification s dealId userId deal user
                      verdict evidence now vid).2 now) := by
                rw [hs', hcc, hkey]
                exact setDeal_same _ _ _
              exact ⟨deal, _, hkey ▸ hdl, hdp, hnew, fun hx => Status.noConfusion hx⟩
          exact hgoal
        · have hev2 : r.2 = [Event.dealRejected deal.id, Event.dealUpdated deal.id] := by
            rw [hev, hcc]; rfl
          have hA : Event.alertsEvaluated d ∉ r.2 := by rw [hev2]; simp
          have hB : Event.dealPromoted d ∉ r.2 := by rw [hev2]; simp
          have hC : Event.dealVerified d ∉ r.2 := by rw [hev2]; simp
          exact c7_of_no_events hA hB hC
  | promoCheck dealId now =>
    simp only [step]
    rcases checkPromotion_spec s dealId now with h | ⟨deal, hdl, hp, hv, h⟩ <;> rw [h]
    · exact c7_of_no_events (by simp) (by simp) (by simp)
    · have hback : (Event.dealPromoted d
            ∈ Event.dealPromoted deal.id
              :: (checkAlertsForDeal s.alerts (promoteDeal deal now) now).2
          ∨ Event.dealVerified d
            ∈ Event.dealPromoted deal.id
              :: (checkAlertsForDeal s.alerts (promoteDeal deal now) now).2) →
          d = deal.id := by
        intro h1
        rcases h1 with h2 | h2 <;> rcases List.mem_cons.1 h2 with h3 | h3
        · exact Event.dealPromoted.inj h3
        · exact absurd h3 (promoted_not_mem_checkAlerts _ _ _ _)
        · exact Event.noConfusion h3
        · exact absurd h3 (verified_not_mem_checkAlerts _ _ _ _)
      constructor
      · constructor
        · intro h1
          rcases List.mem_cons.1 h1 with h2 | h2
          · exact Event.noConfusion h2
          · have hid : d = deal.id :=
              (alertsEvaluated_mem_checkAlerts_iff s.alerts
                (promoteDeal deal now) now d).1 h2
            subst hid
            exact Or.inl (List.mem_cons_self _ _)
        · intro h1
          have hid := hback h1
          subst hid
          exact List.mem_cons_of_mem _
            ((alertsEvaluated_mem_checkAlerts_iff _ _ _ _).2 rfl)
      · intro h1
        have hid := hback h1
        subst hid
        have hkey : deal.id = dealId := hk dealId deal hdl
        refine ⟨deal, promoteDeal deal now, hkey ▸ hdl, hp, ?_,
          fun hx => Status.noConfusion hx⟩
        rw [hkey]
        exact setDeal_same _ _ _
  | alertCreate uid kw mp mv now aid =>
    simp only [step]
    cases hres : postAlert s uid kw mp mv now aid with
    | error e =>
      exact c7_of_no_events (by simp) (by simp) (by simp)
    | ok r =>
      obtain ⟨_, _, hev⟩ := postAlert_ok s uid kw mp mv now aid r.1 r.2 hres
      have hA : Event.alertsEvaluated d ∉ r.2 := by rw [hev]; simp
      have hB : Event.dealPromoted d ∉ r.2 := by rw [hev]; simp
      have hC : Event.dealVerified d ∉ r.2 := by rw [hev]; simp
      exact c7_of_no_events hA hB hC
  | alertDelete aid =>
    exact c7_of_no_events (by simp [step, deleteAlertOp])
      (by simp [step, deleteAlertOp]) (by simp [step, deleteAlertOp])
  | modeSet m =>
    exact c7_of_no_events (by simp [step, setMode])
      (by simp [step, setMode]) (by simp [step, setMode])

theorem alertEvaluationOnSuccessOnly_w :
    (Event.alertsEvaluated 1 ∈ (step exSWP (Op.promoCheck 1 9)).2
      ↔ (Event.dealPromoted 1 ∈ (step exSWP (Op.promoCheck 1 9)).2
        ∨ Event.dealVerified 1 ∈ (step exSWP (Op.promoCheck 1 9)).2))
    ∧ ((Event.dealPromoted 1 ∈ (step exSWP (Op.promoCheck 1 9)).2
        ∨ Event.dealVerified 1 ∈ (step exSWP (Op.promoCheck 1 9)).2) →
        ∃ old nw, exSWP.deals 1 = some old ∧ old.status = Status.pending
          ∧ (step exSWP (Op.promoCheck 1 9)).1.deals 1 = some nw
          ∧ nw.status ≠ Status.pending) :=
  alertEvaluationOnSuccessOnly exSWP (Op.promoCheck 1 9)
    (by
      intro i dl h
      simp only [exSWP, exSW] at h
      split at h
      · rename_i hi
        obtain rfl := Option.some.inj h
        rw [hi]
        rfl
      · exact Option.noConfusion h)
    1

end Dealbuster
